import Mathlib

/-!
Shallow embedding of the honeytrap deception crate
(`crates/honeytrap-deception`): the fake filesystem, command parser,
response generator, MySQL/HTTP interaction handlers and the deception
system's session gauge, with theorems checking the specification's claims
against these definitions.

Modelling conventions:
* Rust `String`/`&str` are Lean `String`; the byte-level operations the
  source uses (`starts_with`, `ends_with`, `contains`, prefix stripping)
  are defined below on character lists, which agrees with the byte-level
  semantics for the ASCII patterns the source uses.
* Rust `HashMap` iteration order is unspecified; the map is embedded as an
  association list whose order stands for one fixed iteration order.
* Rust `PathBuf` keeps the string it was built from; `Path` equality and
  hashing compare normalized components (empty and `.` segments dropped).
  Both the stored string and the component view are modelled.
* `f64` arithmetic is idealized as exact rational arithmetic (`ℚ`); the
  saturating truncating cast `as u64` becomes `f64ToU64` below.  All
  engagement/delay values in scope stay in small ranges where no
  overflow or NaN behaviour arises.
-/

deriving instance DecidableEq for Except

/-- Whether `pat` is a (character-wise) prefix of `l`; Rust `str::starts_with`
for ASCII patterns. -/
def listHasPre (pat l : List Char) : Bool :=
  match pat, l with
  | [], _ => true
  | _ :: _, [] => false
  | p :: ps, c :: cs => p == c && listHasPre ps cs

/-- Whether `pat` occurs as a contiguous sublist of `l`; Rust `str::contains`
for ASCII patterns. -/
def listHasSub (pat l : List Char) : Bool :=
  match l with
  | [] => pat.isEmpty
  | _ :: cs => listHasPre pat l || listHasSub pat cs

/-- Rust `str::contains` on strings. -/
def strContains (hay pat : String) : Bool :=
  listHasSub pat.data hay.data

/-- Rust `str::starts_with` on strings. -/
def strStarts (s pre : String) : Bool :=
  listHasPre pre.data s.data

/-- Rust `str::ends_with` on strings. -/
def strEnds (s suf : String) : Bool :=
  listHasPre suf.data.reverse s.data.reverse

/-- Rust `str::strip_prefix`: the remainder after the prefix, when it is one. -/
def stripPre (pre s : String) : Option String :=
  if strStarts s pre then some ⟨s.data.drop pre.data.length⟩ else none

/-- Rust `str::trim` (ASCII whitespace; the inputs at issue use spaces
only). -/
def rustTrim (s : String) : String :=
  ⟨((s.data.dropWhile Char.isWhitespace).reverse.dropWhile Char.isWhitespace).reverse⟩

/-- Rust `str::to_lowercase` (ASCII letters; the signature patterns at
issue are ASCII). -/
def lowerStr (s : String) : String :=
  ⟨s.data.map Char.toLower⟩

/-- Split a character list at every character satisfying `p`, keeping
empty groups; Rust `str::split(char)` semantics. -/
def splitCharsBy (p : Char → Bool) : List Char → List (List Char)
  | [] => [[]]
  | c :: rest =>
    if p c then [] :: splitCharsBy p rest
    else
      match splitCharsBy p rest with
      | [] => [[c]]
      | g :: gs => (c :: g) :: gs

/-- Rust `str::len`: the UTF-8 byte length. -/
def utf8Len (s : String) : ℕ :=
  s.data.foldl
    (fun n c =>
      n + (if c.toNat < 0x80 then 1
           else if c.toNat < 0x800 then 2
           else if c.toNat < 0x10000 then 3
           else 4))
    0

/-- Rust `str::split_once(sep)` on a character list: the parts before and
after the first occurrence of `sep`. -/
def splitOnceList (sep : Char) : List Char → Option (List Char × List Char)
  | [] => none
  | c :: cs =>
    if c = sep then some ([], cs)
    else (splitOnceList sep cs).map (fun p => (c :: p.1, p.2))

/-- Rust `str::split_once(sep)` on strings. -/
def splitOnce (sep : Char) (s : String) : Option (String × String) :=
  (splitOnceList sep s.data).map (fun p => (⟨p.1⟩, ⟨p.2⟩))

/-- Rust `str::split_whitespace`: whitespace-separated words, empty pieces
dropped (ASCII whitespace; the inputs at issue use spaces only). -/
def splitWs (s : String) : List String :=
  ((splitCharsBy Char.isWhitespace s.data).filter (fun g => !g.isEmpty)).map
    (fun g => (⟨g⟩ : String))

/-! ## Path model

The source stores paths in a `HashMap<PathBuf, FileEntry>`.  `PathBuf`
keeps the string it was built from; map lookup compares normalized
components.  `splitSlash`/`pathComps` give the component view of the
absolute paths this system handles (a leading `.` of a relative path,
which Rust would keep, never arises here). -/

/-- Split a character list at every `'/'`, keeping empty groups. -/
def splitSlash (l : List Char) : List (List Char) :=
  splitCharsBy (fun c => c == '/') l

/-- The normalized components of a path: split at `'/'`, empty and `"."`
segments dropped (`..` kept), as Rust `Path::components` yields for the
absolute paths in scope.  `Path` equality and `HashMap` lookup compare
these. -/
def pathComps (s : String) : List (List Char) :=
  (splitSlash s.data).filter (fun c => !c.isEmpty && c ≠ ['.'])

/-- Remove the trailing run of non-separator characters. -/
def dropTrailNonSep (l : List Char) : List Char :=
  (l.reverse.dropWhile (fun c => c != '/')).reverse

/-- Right-trim on the reversed character list: drop trailing separators
and trailing `.` segments, keeping a lone root `/`; the right-trim Rust's
`Components::as_path` applies, seen from the back of the string. -/
def trimRevA : List Char → List Char
  | [] => []
  | ['/'] => ['/']
  | '/' :: rest => trimRevA rest
  | ['.'] => []
  | '.' :: '/' :: rest => trimRevA ('/' :: rest)
  | l => l

/-- Trim trailing separators and trailing `.` segments, keeping a lone
root `/`. -/
def trimR (l : List Char) : List Char :=
  (trimRevA l.reverse).reverse

/-- Rust `Path::parent` for the absolute paths in scope: `none` at the
root, else the original string up to (and excluding) the last normalized
component, right-trimmed. -/
def rustParent (s : String) : Option String :=
  if pathComps s = [] then none
  else some ⟨trimR (dropTrailNonSep (trimR s.data))⟩

/-- Rust `PathBuf::push`/`Path::join`: an absolute argument replaces the
base; otherwise a separator is inserted unless the base is empty or ends
in one. -/
def rustJoin (base p : String) : String :=
  if strStarts p "/" then p
  else if base = "" then p
  else if strEnds base "/" then base ++ p
  else base ++ "/" ++ p

/-- `FakeFilesystem::resolve_path`: resolve a path argument against the
current directory. -/
def resolvePath (cd p : String) : String :=
  if strStarts p "/" then p
  else if p = "~" then "/home/admin"
  else if strStarts p "~/" then rustJoin "/home/admin" (p.drop 2)
  else if p = ".." then (rustParent cd).getD cd
  else if p = "." then cd
  else rustJoin cd p

/-- The target directory `list_dir` resolves: the argument resolved
against the current directory, or the current directory itself. -/
def listTarget (cd : String) (path : Option String) : String :=
  match path with
  | some p => resolvePath cd p
  | none => cd

/-- Rust `Path::file_name`, `unwrap_or_default`-ed to `""` as the source
does: the last normalized component, `""` for the root or a trailing
`..`. -/
def rustFileName (p : String) : String :=
  match (pathComps p).getLast? with
  | some c => if c = ['.', '.'] then "" else ⟨c⟩
  | none => ""

/-! ## FakeFilesystem -/

/-- File type. -/
inductive FileType where
  | Directory
  | File
  | Symlink
deriving DecidableEq, Repr

/-- File entry. -/
structure FileEntry where
  name : String
  file_type : FileType
  permissions : String
  size : ℕ
  content : Option String
  children : List String
deriving DecidableEq, Repr

/-- The fake filesystem: the path→entry map (association list standing
for one `HashMap` iteration order) and the current directory. -/
structure FakeFilesystem where
  files : List (String × FileEntry)
  current_dir : String
deriving DecidableEq, Repr

/-- `FakeFilesystem::add_dir`: the entry a directory insertion stores. -/
def mkDir (path permissions : String) : String × FileEntry :=
  (path, { name := rustFileName path, file_type := FileType.Directory,
           permissions := permissions, size := 4096, content := none, children := [] })

/-- `FakeFilesystem::add_file`: the entry a file insertion stores. -/
def mkFile (path permissions : String) (size : ℕ) (content : Option String) :
    String × FileEntry :=
  (path, { name := rustFileName path, file_type := FileType.File,
           permissions := permissions, size := size, content := content, children := [] })

/-- `FakeFilesystem::initialize_structure`: the seeded tree, in insertion
order (all keys are component-distinct, so insertion never replaces). -/
def initFiles : List (String × FileEntry) :=
  [ mkDir "/" "drwxr-xr-x",
    mkDir "/home" "drwxr-xr-x",
    mkDir "/home/admin" "drwxr-xr-x",
    mkDir "/etc" "drwxr-xr-x",
    mkDir "/var" "drwxr-xr-x",
    mkDir "/tmp" "drwxrwxrwt",
    mkDir "/usr" "drwxr-xr-x",
    mkDir "/bin" "drwxr-xr-x",
    mkDir "/opt" "drwxr-xr-x",
    mkFile "/home/admin/.bashrc" "-rw-r--r--" 220
      (some "# .bashrc\nexport PS1='\\u@\\h:\\w\\$ '\n"),
    mkFile "/home/admin/.bash_history" "-rw-------" 450
      (some "ls\npwd\nwhoami\n"),
    mkFile "/home/admin/.ssh" "drwx------" 0 none,
    mkFile "/etc/passwd" "-rw-r--r--" 1024
      (some "root:x:0:0:root:/root:/bin/bash\nadmin:x:1000:1000::/home/admin:/bin/bash\n"),
    mkFile "/etc/shadow" "-rw-------" 512 none,
    mkFile "/etc/hosts" "-rw-r--r--" 156 (some "127.0.0.1 localhost\n"),
    mkDir "/var/log" "drwxr-xr-x",
    mkFile "/var/log/syslog" "-rw-r-----" 4096
      (some "Dec  1 10:00:01 server systemd[1]: Started session.\n") ]

/-- `FakeFilesystem::new`. -/
def FakeFilesystem.new : FakeFilesystem :=
  { files := initFiles, current_dir := "/home/admin" }

/-- `HashMap::get`: the entry stored under a key with the same normalized
components. -/
def fsGet (files : List (String × FileEntry)) (p : String) : Option FileEntry :=
  (files.find? (fun kv => pathComps kv.1 == pathComps p)).map (fun kv => kv.2)

/-- `FakeFilesystem::list_dir`. -/
def listDir (fs : FakeFilesystem) (path : Option String) : Except String (List FileEntry) :=
  let target : String := listTarget fs.current_dir path
  let entries : List FileEntry :=
    (fs.files.filter (fun kv =>
      (rustParent kv.1 == some target) && kv.1 != target)).map (fun kv => kv.2)
  if entries.isEmpty ∧ fsGet fs.files target = none then
    Except.error ("ls: cannot access '" ++ target ++ "': No such file or directory")
  else
    Except.ok entries

/-- `FakeFilesystem::read_file`: the permission check is on the byte
length and the 8th character (index 7, the other-read position). -/
def readFile (fs : FakeFilesystem) (path : String) : Except String String :=
  let full := resolvePath fs.current_dir path
  match fsGet fs.files full with
  | some entry =>
    match entry.file_type with
    | FileType.File =>
      if 10 ≤ utf8Len entry.permissions ∧ entry.permissions.data.get? 7 = some 'r' then
        Except.ok (entry.content.getD "")
      else
        Except.error ("cat: " ++ path ++ ": Permission denied")
    | FileType.Directory => Except.error ("cat: " ++ path ++ ": Is a directory")
    | FileType.Symlink => Except.ok (entry.content.getD "")
  | none => Except.error ("cat: " ++ path ++ ": No such file or directory")

/-- `FakeFilesystem::change_dir`. -/
def changeDir (fs : FakeFilesystem) (path : String) : Except String FakeFilesystem :=
  let np := resolvePath fs.current_dir path
  match fsGet fs.files np with
  | some entry =>
    if entry.file_type = FileType.Directory then
      Except.ok { fs with current_dir := np }
    else
      Except.error ("cd: " ++ path ++ ": Not a directory")
  | none => Except.error ("cd: " ++ path ++ ": No such file or directory")

/-- `FakeFilesystem::current_dir`. -/
def currentDir (fs : FakeFilesystem) : String :=
  fs.current_dir

/-! ## CommandParser -/

/-- Parsed command. -/
structure Command where
  name : String
  args : List String
  raw : String
  is_malicious : Bool
deriving DecidableEq, Repr

/-- Command parser state. -/
structure CommandParser where
  malicious_patterns : List String
  command_history : List Command
deriving DecidableEq, Repr

/-- The fixed signature set `CommandParser::new` installs. -/
def defaultPatterns : List String :=
  [ "rm -rf", "wget", "curl", "nc -", "bash -i", "/bin/sh", "chmod +x",
    "base64 -d", "python -c", "perl -e", "sudo", "passwd", "useradd", "iptables" ]

/-- `CommandParser::new`. -/
def CommandParser.new : CommandParser :=
  { malicious_patterns := defaultPatterns, command_history := [] }

/-- `CommandParser::is_malicious_command`. -/
def isMaliciousCommand (p : CommandParser) (cmd : String) : Bool :=
  p.malicious_patterns.any (fun pat => strContains cmd pat)

/-- `CommandParser::parse`: always yields a `Command` and appends it to the
history. -/
def parse (p : CommandParser) (input : String) : Command × CommandParser :=
  let trimmed := rustTrim input
  let parts := splitWs trimmed
  let name : String := match parts with | [] => "" | n :: _ => n
  let args : List String := match parts with | [] => [] | _ :: rest => rest
  let cmd : Command :=
    { name := name, args := args, raw := trimmed,
      is_malicious := isMaliciousCommand p trimmed }
  (cmd, { p with command_history := p.command_history ++ [cmd] })

/-! ## ResponseGenerator -/

/-- Response strategy. -/
inductive ResponseStrategy where
  | Minimal
  | Standard
  | Deep
  | Adaptive
deriving DecidableEq, Repr

/-- Response generator state; `engagement_level` is the `f64` field
idealized as `ℚ`, `time_wasted` a nanosecond count. -/
structure ResponseGenerator where
  strategy : ResponseStrategy
  engagement_level : ℚ
  time_wasted : ℕ
deriving DecidableEq, Repr

/-- `ResponseGenerator::new`: engagement starts at 0.5. -/
def ResponseGenerator.new (s : ResponseStrategy) : ResponseGenerator :=
  { strategy := s, engagement_level := 1 / 2, time_wasted := 0 }

/-- The Rust cast `x as u64` for a non-NaN `f64` idealized as `ℚ`:
truncation toward zero, saturating at 0 and `u64::MAX`. -/
def f64ToU64 (q : ℚ) : ℕ :=
  if q ≤ 0 then 0 else min ⌊q⌋.toNat (2 ^ 64 - 1)

/-- `ResponseGenerator::calculate_delay`, in milliseconds
(`Duration::from_millis(base_delay + complexity_factor)`; the `u64`
addition is wrapping). -/
def calculateDelay (g : ResponseGenerator) (command_complexity : ℚ) : ℕ :=
  let base_delay : ℕ :=
    match g.strategy with
    | ResponseStrategy.Minimal => 50
    | ResponseStrategy.Standard => 200
    | ResponseStrategy.Deep => 1000
    | ResponseStrategy.Adaptive => f64ToU64 (g.engagement_level * 1000)
  let complexity_factor : ℕ := f64ToU64 (command_complexity * 500)
  (base_delay + complexity_factor) % 2 ^ 64

/-- `ResponseGenerator::update_engagement`. -/
def updateEngagement (g : ResponseGenerator) (is_sophisticated is_automated : Bool) :
    ResponseGenerator :=
  if is_sophisticated && !is_automated then
    { g with engagement_level := min (g.engagement_level + 1 / 10) 1 }
  else if is_automated then
    { g with engagement_level := max (g.engagement_level - 1 / 5) (1 / 10) }
  else g

/-- The generator after a sequence of `update_engagement` calls. -/
def foldEngagement (g : ResponseGenerator) (calls : List (Bool × Bool)) :
    ResponseGenerator :=
  calls.foldl (fun g ba => updateEngagement g ba.1 ba.2) g

/-! ## MysqlInteractionHandler -/

/-- MySQL response. -/
inductive MysqlResponse where
  | Ok (affected_rows : ℕ)
  | Error (code : ℕ) (message : String)
  | ResultSet (columns : List String) (rows : List (List String))
deriving DecidableEq, Repr

/-- The injection signatures `detect_malicious_query` logs. -/
inductive SqlDetection where
  | UnionInjection
  | CommentInjection
  | TimeBased
  | FileWrite
  | PrivEsc
deriving DecidableEq, Repr

/-- MySQL handler state. -/
structure MysqlState where
  session_id : String
  authenticated : Bool
  username : Option String
  database : Option String
  query_count : ℕ
deriving DecidableEq, Repr

/-- `MysqlInteractionHandler::new`. -/
def MysqlState.new (session_id : String) : MysqlState :=
  { session_id := session_id, authenticated := false, username := none,
    database := none, query_count := 0 }

/-- The MySQL server version string the handler advertises. -/
def serverVersion : String := "5.7.38-0ubuntu0.18.04.1"

/-- `MysqlInteractionHandler::detect_malicious_query`: the signatures the
query triggers, in the order the source checks them. -/
def detectMaliciousQuery (query : String) : List SqlDetection :=
  let ql := lowerStr query
  (if strContains ql "union" && strContains ql "select" then [SqlDetection.UnionInjection] else [])
    ++ (if strContains ql "--" || strContains ql "#" then [SqlDetection.CommentInjection] else [])
    ++ (if strContains ql "sleep(" || strContains ql "benchmark(" then [SqlDetection.TimeBased] else [])
    ++ (if strContains ql "into outfile" || strContains ql "into dumpfile" then [SqlDetection.FileWrite] else [])
    ++ (if strContains ql "grant" || strContains ql "create user" then [SqlDetection.PrivEsc] else [])

/-- `MysqlInteractionHandler::handle_show_query` (applied to the lowercased
query). -/
def handleShowQuery (query : String) : MysqlResponse :=
  if strContains query "databases" then
    MysqlResponse.ResultSet ["Database"]
      [["information_schema"], ["mysql"], ["corporate_db"], ["test"]]
  else if strContains query "tables" then
    MysqlResponse.ResultSet ["Tables_in_corporate_db"]
      [["users"], ["sessions"], ["logs"]]
  else if strContains query "variables" then
    MysqlResponse.ResultSet ["Variable_name", "Value"]
      [["version", serverVersion], ["datadir", "/var/lib/mysql/"]]
  else
    MysqlResponse.Ok 0

/-- `MysqlInteractionHandler::handle_select_query` (applied to the
lowercased query). -/
def handleSelectQuery (st : MysqlState) (query : String) : MysqlResponse :=
  if strContains query "version()" then
    MysqlResponse.ResultSet ["version()"] [[serverVersion]]
  else if strContains query "user()" then
    MysqlResponse.ResultSet ["user()"]
      [[(st.username.map (fun u => u ++ "@localhost")).getD "guest@localhost"]]
  else if strContains query "database()" then
    MysqlResponse.ResultSet ["database()"] [[st.database.getD "NULL"]]
  else if strContains query "from" then
    MysqlResponse.ResultSet ["id", "name"] [["1", "sample_data"]]
  else
    MysqlResponse.ResultSet ["result"] [["1"]]

/-- `MysqlInteractionHandler::handle_use_query` (applied to the lowercased
query): records the trimmed remainder as the database, or answers error
1049 when the prefix is absent. -/
def handleUseQuery (st : MysqlState) (query : String) : MysqlResponse × MysqlState :=
  match stripPre "use " query with
  | some rest =>
    (MysqlResponse.Ok 0, { st with database := some (rustTrim rest) })
  | none =>
    (MysqlResponse.Error 1049 "Unknown database", st)

/-- The keyword dispatch of `MysqlInteractionHandler::handle_query`
(applied to the lowercased query). -/
def dispatchQuery (st : MysqlState) (ql : String) : MysqlResponse × MysqlState :=
  if strStarts ql "show" then (handleShowQuery ql, st)
  else if strStarts ql "select" then (handleSelectQuery st ql, st)
  else if strStarts ql "use " then handleUseQuery st ql
  else if strStarts ql "insert" || strStarts ql "update" || strStarts ql "delete" then
    (MysqlResponse.Ok 0, st)
  else
    (MysqlResponse.Error 1064 "You have an error in your SQL syntax", st)

/-- `MysqlInteractionHandler::handle_query`: bumps the query count, scans
the raw query for injection signatures, then dispatches on the
lowercased leading keyword.  Returns (response, logged detections, new
state). -/
def handleQuery (st : MysqlState) (query : String) :
    MysqlResponse × List SqlDetection × MysqlState :=
  let st1 := { st with query_count := st.query_count + 1 }
  let dets := detectMaliciousQuery query
  let rs := dispatchQuery st1 (lowerStr query)
  (rs.1, dets, rs.2)

/-! ## HttpInteractionHandler -/

/-- HTTP method. -/
inductive HttpMethod where
  | GET
  | POST
  | PUT
  | DELETE
  | HEAD
  | OPTIONS
deriving DecidableEq, Repr

/-- HTTP request. -/
structure HttpRequest where
  method : HttpMethod
  path : String
  headers : List (String × String)
  body : Option String
deriving DecidableEq, Repr

/-- HTTP response. -/
structure HttpResponse where
  status : ℕ
  status_text : String
  headers : List (String × String)
  body : String
deriving DecidableEq, Repr

/-- HTTP handler state. -/
structure HttpState where
  session_id : String
  request_count : ℕ
  login_attempts : List (String × String)
deriving DecidableEq, Repr

/-- `HttpInteractionHandler::new`. -/
def HttpState.new (session_id : String) : HttpState :=
  { session_id := session_id, request_count := 0, login_attempts := [] }

/-- HTTP statistics. -/
structure HttpStats where
  request_count : ℕ
  login_attempts : ℕ
  captured_credentials : List (String × String)
deriving DecidableEq, Repr

/-- The attack signatures `detect_attacks` logs. -/
inductive HttpAttack where
  | SqlInjection
  | Xss
  | CommandInjection
  | Traversal
deriving DecidableEq, Repr

/-- `HttpInteractionHandler::default_headers` (insertion order of the
source's `HashMap` inserts). -/
def defaultHeaders (content_type : String) : List (String × String) :=
  [ ("Content-Type", content_type),
    ("Server", "Apache/2.4.41 (Ubuntu)"),
    ("X-Powered-By", "PHP/7.4.3") ]

/-- `HttpInteractionHandler::detect_attacks`: the signatures the request
path triggers, in the order the source checks them. -/
def detectAttacks (req : HttpRequest) : List HttpAttack :=
  let path := req.path
  (if strContains path "UNION" || strContains path "SELECT" || strContains path "'"
   then [HttpAttack.SqlInjection] else [])
    ++ (if strContains path "<script>" || strContains path "javascript:"
        then [HttpAttack.Xss] else [])
    ++ (if strContains path ";" || strContains path "|" || strContains path "`"
        then [HttpAttack.CommandInjection] else [])
    ++ (if strContains path "../" || strContains path "..\\"
        then [HttpAttack.Traversal] else [])

/-- Modelled from the spec: URL decoding by the external `urlencoding`
crate (`urlencoding::decode`, not part of this repository), restricted to
the single-byte escapes the claims exercise: a `%` followed by two hex
digits decodes to that byte's character, anything else passes through. -/
def hexVal (c : Char) : Option ℕ :=
  if '0' ≤ c ∧ c ≤ '9' then some (c.toNat - '0'.toNat)
  else if 'a' ≤ c ∧ c ≤ 'f' then some (c.toNat - 'a'.toNat + 10)
  else if 'A' ≤ c ∧ c ≤ 'F' then some (c.toNat - 'A'.toNat + 10)
  else none

/-- Modelled from the spec: percent-decoding of a character list, see
`hexVal`. -/
def pctDecode : List Char → List Char
  | [] => []
  | '%' :: a :: b :: rest =>
    match hexVal a, hexVal b with
    | some x, some y => Char.ofNat (16 * x + y) :: pctDecode rest
    | _, _ => '%' :: pctDecode (a :: b :: rest)
  | c :: rest => c :: pctDecode rest

/-- Modelled from the spec: `urlencoding::decode(..).unwrap_or_default()`
on a string. -/
def urldecode (s : String) : String :=
  ⟨pctDecode s.data⟩

/-- The credential extraction loop of
`HttpInteractionHandler::handle_login_post`: split the body at `&`, take
each `key=value` piece, URL-decode the value of `username` and of
`password` (a later occurrence overwrites). -/
def extractCreds (body : String) : String × String :=
  ((splitCharsBy (fun c => c == '&') body.data).map (fun g => (⟨g⟩ : String))).foldl
    (fun (up : String × String) part =>
      match splitOnce '=' part with
      | some kv =>
        if kv.1 = "username" then (urldecode kv.2, up.2)
        else if kv.1 = "password" then (up.1, urldecode kv.2)
        else up
      | none => up)
    ("", "")

/-- The login-failed page `handle_login_post` always answers with. -/
def loginFailedBody : String :=
  "<!DOCTYPE html>\n<html>\n<head>\n    <title>Login Failed</title>\n</head>\n<body>\n    <h2>Login Failed</h2>\n    <p>Invalid credentials. <a href=\"/login\">Try again</a></p>\n</body>\n</html>"

/-- `HttpInteractionHandler::handle_login_post`: when a body is present,
the decoded credentials are appended to `login_attempts`; the response is
always 401. -/
def handleLoginPost (st : HttpState) (req : HttpRequest) : HttpResponse × HttpState :=
  let st' :=
    match req.body with
    | some b => { st with login_attempts := st.login_attempts ++ [extractCreds b] }
    | none => st
  ({ status := 401, status_text := "Unauthorized",
     headers := defaultHeaders "text/html", body := loginFailedBody }, st')

/-- `HttpInteractionHandler::serve_homepage`. -/
def serveHomepage : HttpResponse :=
  { status := 200, status_text := "OK", headers := defaultHeaders "text/html",
    body := "<!DOCTYPE html>\n<html>\n<head>\n    <title>Corporate Portal</title>\n</head>\n<body>\n    <h1>Welcome to Corporate Portal</h1>\n    <p><a href=\"/login\">Login</a></p>\n    <p><a href=\"/admin\">Admin Panel</a></p>\n</body>\n</html>" }

/-- `HttpInteractionHandler::serve_login_page`. -/
def serveLoginPage : HttpResponse :=
  { status := 200, status_text := "OK", headers := defaultHeaders "text/html",
    body := "<!DOCTYPE html>\n<html>\n<head>\n    <title>Login - Corporate Portal</title>\n</head>\n<body>\n    <h2>Login</h2>\n    <form method=\"POST\" action=\"/login\">\n        <input type=\"text\" name=\"username\" placeholder=\"Username\"><br>\n        <input type=\"password\" name=\"password\" placeholder=\"Password\"><br>\n        <button type=\"submit\">Login</button>\n    </form>\n</body>\n</html>" }

/-- `HttpInteractionHandler::serve_admin_page`. -/
def serveAdminPage : HttpResponse :=
  { status := 403, status_text := "Forbidden", headers := defaultHeaders "text/html",
    body := "<!DOCTYPE html>\n<html>\n<head>\n    <title>Admin Panel</title>\n</head>\n<body>\n    <h2>Access Denied</h2>\n    <p>You must be logged in to access this page.</p>\n    <p><a href=\"/login\">Login</a></p>\n</body>\n</html>" }

/-- `HttpInteractionHandler::serve_fake_config` (braces of the JSON body
written as character escapes). -/
def serveFakeConfig : HttpResponse :=
  { status := 200, status_text := "OK", headers := defaultHeaders "application/json",
    body := "\x7b\n    \"version\": \"1.0.0\",\n    \"database\": \x7b\n        \"host\": \"localhost\",\n        \"port\": 3306,\n        \"name\": \"corporate_db\"\n    \x7d,\n    \"api_key\": \"sk-fake-key-12345\",\n    \"admin_email\": \"admin@corporate.com\"\n\x7d" }

/-- `HttpInteractionHandler::serve_404` (also the body of
`handle_php_request`). -/
def serve404 : HttpResponse :=
  { status := 404, status_text := "Not Found", headers := defaultHeaders "text/html",
    body := "<html><body><h1>404 Not Found</h1></body></html>" }

/-- `HttpInteractionHandler::handle_directory_traversal`. -/
def serveTraversal : HttpResponse :=
  { status := 403, status_text := "Forbidden", headers := defaultHeaders "text/html",
    body := "<html><body><h1>403 Forbidden</h1></body></html>" }

/-- The route match of `HttpInteractionHandler::handle_request`, in the
source's arm order. -/
def routeRequest (st : HttpState) (req : HttpRequest) : HttpResponse × HttpState :=
  if req.method = HttpMethod.GET ∧ req.path = "/" then (serveHomepage, st)
  else if req.method = HttpMethod.GET ∧ req.path = "/login" then (serveLoginPage, st)
  else if req.method = HttpMethod.POST ∧ req.path = "/login" then handleLoginPost st req
  else if req.method = HttpMethod.GET ∧ req.path = "/admin" then (serveAdminPage, st)
  else if req.method = HttpMethod.GET ∧ req.path = "/api/config" then (serveFakeConfig, st)
  else if req.method = HttpMethod.GET ∧ strEnds req.path ".php" then (serve404, st)
  else if req.method = HttpMethod.GET ∧ strContains req.path ".." then (serveTraversal, st)
  else (serve404, st)

/-- `HttpInteractionHandler::handle_request`: bumps the request count,
scans the request for attack signatures, then routes.  Returns
(response, logged detections, new state). -/
def handleRequest (st : HttpState) (req : HttpRequest) :
    HttpResponse × List HttpAttack × HttpState :=
  let st1 := { st with request_count := st.request_count + 1 }
  let dets := detectAttacks req
  let rs := routeRequest st1 req
  (rs.1, dets, rs.2)

/-- `HttpInteractionHandler::get_stats`. -/
def getStats (st : HttpState) : HttpStats :=
  { request_count := st.request_count,
    login_attempts := st.login_attempts.length,
    captured_credentials := st.login_attempts }

/-! ## DeceptionSystem -/

/-- `DeceptionSystem::handle_connection`, abstracted over the outcome of
the honeypot registered at port 22 (`none`: no honeypot there;
`some r`: its `handle` returns `r`).  The state is the
`active_sessions` counter: it is incremented at entry; on an `Err` from
`handle` the `?` operator returns before the decrement runs. -/
def handleConnection (active_sessions : ℕ) (honeypotAt22 : Option (Except Unit Unit)) :
    Except Unit Unit × ℕ :=
  let s1 := active_sessions + 1
  match honeypotAt22 with
  | some (Except.error e) => (Except.error e, s1)
  | some (Except.ok _) => (Except.ok (), s1 - 1)
  | none => (Except.ok (), s1 - 1)

/-! ## Spec-side definition for the path claim -/

/-- Join path components with `'/'` separators. -/
def joinComps : List (List Char) → List Char
  | [] => []
  | [a] => a
  | a :: rest => a ++ '/' :: joinComps rest

/-- Follows the spec's words, for comparison with the code's behaviour:
the canonical absolute form of a path argument, resolved against the
current directory — the absolute string spelled from the normalized
components, with no trailing separator and no `.` segments. -/
def specCanonicalAbsForm (cd p : String) : String :=
  ⟨'/' :: joinComps (pathComps (resolvePath cd p))⟩

/-- The UNION/comment injection probe of the spec's testable property. -/
def unionQuery : String := "SELECT * FROM users UNION SELECT NULL,NULL,NULL--"

/-! ## Helper lemmas -/

/-- A successful prefix test exposes the head of the list. -/
theorem listHasPre_expose {p : Char} {ps l : List Char}
    (h : listHasPre (p :: ps) l = true) :
    ∃ cs, l = p :: cs ∧ listHasPre ps cs = true := by
  cases l with
  | nil => simp [listHasPre] at h
  | cons c cs =>
    simp only [listHasPre, Bool.and_eq_true, beq_iff_eq] at h
    exact ⟨cs, by rw [h.1], h.2⟩

/-- `foldEngagement` unfolds one call at a time. -/
theorem foldEngagement_cons (g : ResponseGenerator) (ba : Bool × Bool)
    (rest : List (Bool × Bool)) :
    foldEngagement g (ba :: rest) = foldEngagement (updateEngagement g ba.1 ba.2) rest :=
  rfl

/-- One `update_engagement` call keeps the engagement level in
`[0.1, 1]`. -/
theorem updateEngagement_bounds (g : ResponseGenerator) (s a : Bool)
    (h1 : 1 / 10 ≤ g.engagement_level) (h2 : g.engagement_level ≤ 1) :
    1 / 10 ≤ (updateEngagement g s a).engagement_level ∧
      (updateEngagement g s a).engagement_level ≤ 1 := by
  cases s <;> cases a <;>
    simp only [updateEngagement, Bool.and_self, Bool.not_true, Bool.not_false,
      Bool.and_true, Bool.and_false, Bool.true_and, Bool.false_and,
      if_true, if_false, Bool.false_eq_true, ite_false, ite_true] <;>
    constructor
  · exact h1
  · exact h2
  · exact le_max_right _ _
  · exact max_le (by linarith) (by norm_num)
  · exact le_min (by linarith) (by norm_num)
  · exact min_le_right _ _
  · exact le_max_right _ _
  · exact max_le (by linarith) (by norm_num)

/-- Any sequence of `update_engagement` calls keeps the engagement level
in `[0.1, 1]`. -/
theorem engagement_invariant (calls : List (Bool × Bool)) :
    ∀ g : ResponseGenerator, 1 / 10 ≤ g.engagement_level → g.engagement_level ≤ 1 →
      1 / 10 ≤ (foldEngagement g calls).engagement_level ∧
        (foldEngagement g calls).engagement_level ≤ 1 := by
  induction calls with
  | nil => intro g h1 h2; exact ⟨h1, h2⟩
  | cons ba rest ih =>
    intro g h1 h2
    rw [foldEngagement_cons]
    have hb := updateEngagement_bounds g ba.1 ba.2 h1 h2
    exact ih _ hb.1 hb.2

/-! ## Claim theorems -/

/-- C1: the claim says `handle_connection` restores `active_sessions`
whether the selected honeypot's `handle` returns `Ok` or `Err`.  The code
disagrees: the `?` operator returns before the decrement on `Err`, so the
gauge stays one higher; only the `Ok` and no-honeypot paths restore it.
This theorem evaluates the embedded code at the failing input. -/
theorem active_sessions_leak_on_error :
    (handleConnection 0 (some (Except.error ()))).2 = 1 ∧
    (handleConnection 0 (some (Except.error ()))).1 = Except.error () ∧
    (handleConnection 0 (some (Except.ok ()))).2 = 0 ∧
    (handleConnection 0 none).2 = 0 := by
  decide

/-- C3: from a fresh generator, every sequence of `update_engagement`
calls keeps `engagement_level` within `[0, 1]` (indeed within
`[0.1, 1]`), and at any state a `(sophisticated, manual)` call sets the
level to `min (e + 0.1) 1`, any automated call to `max (e - 0.2) 0.1`,
and the remaining combination leaves it unchanged. -/
theorem engagement_updates_bounded :
    ∀ (s : ResponseStrategy) (calls : List (Bool × Bool)),
      (0 ≤ (foldEngagement (ResponseGenerator.new s) calls).engagement_level ∧
        (foldEngagement (ResponseGenerator.new s) calls).engagement_level ≤ 1) ∧
      (∀ g : ResponseGenerator,
        (updateEngagement g true false).engagement_level
            = min (g.engagement_level + 1 / 10) 1 ∧
        (∀ b : Bool, (updateEngagement g b true).engagement_level
            = max (g.engagement_level - 1 / 5) (1 / 10)) ∧
        (updateEngagement g false false).engagement_level = g.engagement_level) := by
  intro s calls
  have h := engagement_invariant calls (ResponseGenerator.new s)
    (by norm_num [ResponseGenerator.new]) (by norm_num [ResponseGenerator.new])
  refine ⟨⟨by linarith [h.1], h.2⟩, fun g => ⟨rfl, fun b => ?_, rfl⟩⟩
  cases b <;> rfl

/-- C5: `parse` is total; on blank input it yields an empty name and no
arguments, `parse "wget http://x/y"` is flagged malicious, and
`parse "ls -la"` yields name `ls`, args `["-la"]`, not malicious —
whatever history the parser carries. -/
theorem parse_blank_and_probe_commands :
    ∀ (st : CommandParser) (input : String), rustTrim input = "" →
      ((parse st input).1.name = "" ∧ (parse st input).1.args = []) ∧
      (∀ hist : List Command,
        (parse ⟨defaultPatterns, hist⟩ "wget http://x/y").1.is_malicious = true) ∧
      (∀ hist : List Command,
        (parse ⟨defaultPatterns, hist⟩ "ls -la").1.name = "ls" ∧
        (parse ⟨defaultPatterns, hist⟩ "ls -la").1.args = ["-la"] ∧
        (parse ⟨defaultPatterns, hist⟩ "ls -la").1.is_malicious = false) := by
  intro st input h
  have hsplit : splitWs (rustTrim input) = [] := by rw [h]; rfl
  refine ⟨⟨?_, ?_⟩, fun hist => rfl, fun hist => ⟨rfl, rfl, rfl⟩⟩ <;>
    simp [parse, hsplit]

/-- C5 witness: the blank case at the empty input on a fresh parser. -/
theorem parse_blank_witness :
    (parse CommandParser.new "").1.name = "" ∧ (parse CommandParser.new "").1.args = [] :=
  (parse_blank_and_probe_commands CommandParser.new "" rfl).1

/-- C6: the UNION/comment probe query is logged both as UNION-based and
as comment injection, the response is still a well-formed `ResultSet`
(non-empty columns, every row as wide as the column list), and in general
the detection scan of `handle_query` depends only on the query, not on
the dispatched response. -/
theorem mysql_union_probe_logged_and_answered :
    ∀ st : MysqlState,
      SqlDetection.UnionInjection ∈ (handleQuery st unionQuery).2.1 ∧
      SqlDetection.CommentInjection ∈ (handleQuery st unionQuery).2.1 ∧
      (∃ cols rows, (handleQuery st unionQuery).1 = MysqlResponse.ResultSet cols rows ∧
        cols ≠ [] ∧ ∀ r ∈ rows, r.length = cols.length) ∧
      (∀ (st' : MysqlState) (q : String),
        (handleQuery st' q).2.1 = detectMaliciousQuery q) := by
  intro st
  have hdet : (handleQuery st unionQuery).2.1
      = [SqlDetection.UnionInjection, SqlDetection.CommentInjection] := rfl
  refine ⟨by rw [hdet]; decide, by rw [hdet]; decide,
    ⟨["id", "name"], [["1", "sample_data"]], rfl, by decide, by decide⟩,
    fun st' q => rfl⟩

/-- C7: every POST to `/login` with a body answers 401 and appends the
decoded credential pair to the captured list, which `get_stats` reports
in arrival order; the spec's probe body decodes to
`("admin", "admin123")`, and percent-escapes are decoded. -/
theorem http_login_post_captures_credentials :
    ∀ (st : HttpState) (hdrs : List (String × String)) (body : String),
      (handleRequest st ⟨HttpMethod.POST, "/login", hdrs, some body⟩).1.status = 401 ∧
      (handleRequest st ⟨HttpMethod.POST, "/login", hdrs, some body⟩).2.2.login_attempts
          = st.login_attempts ++ [extractCreds body] ∧
      (getStats (handleRequest st
        ⟨HttpMethod.POST, "/login", hdrs, some body⟩).2.2).captured_credentials
          = st.login_attempts ++ [extractCreds body] ∧
      extractCreds "username=admin&password=admin123" = ("admin", "admin123") ∧
      extractCreds "username=ad%6Din&password=secret%21" = ("admin", "secret!") := by
  intro st hdrs body
  exact ⟨rfl, rfl, rfl, by decide, by decide⟩


/-- An upper bound on the truncating cast: a rational at most `n` casts
to at most `n`. -/
theorem f64ToU64_le {q : ℚ} {n : ℕ} (h : q ≤ (n : ℚ)) : f64ToU64 q ≤ n := by
  unfold f64ToU64
  split
  · exact Nat.zero_le n
  · have hfl : ⌊q⌋ ≤ (n : ℤ) := by
      calc ⌊q⌋ ≤ ⌊(n : ℚ)⌋ := Int.floor_le_floor h
        _ = n := Int.floor_natCast n
    have hn : ⌊q⌋.toNat ≤ n := by omega
    exact le_trans (min_le_left _ _) hn

/-- C9 (amended): for every complexity `c ∈ [0,1]` and engagement level,
`calculate_delay` equals the strategy base delay (Minimal 50, Standard
200, Deep 1000, Adaptive the truncation of `engagement×1000`) plus the
truncation of `c×500` — `as u64` truncates, it does not keep the exact
product — and the Minimal delay is strictly below the Deep delay at the
same complexity. -/
theorem calculate_delay_base_plus_truncated :
    ∀ (e : ℚ) (t1 t2 : ℕ) (c : ℚ), 0 ≤ c → c ≤ 1 →
      calculateDelay ⟨ResponseStrategy.Minimal, e, t1⟩ c = 50 + f64ToU64 (c * 500) ∧
      calculateDelay ⟨ResponseStrategy.Standard, e, t1⟩ c = 200 + f64ToU64 (c * 500) ∧
      calculateDelay ⟨ResponseStrategy.Deep, e, t1⟩ c = 1000 + f64ToU64 (c * 500) ∧
      (0 ≤ e → e ≤ 1 →
        calculateDelay ⟨ResponseStrategy.Adaptive, e, t1⟩ c
          = f64ToU64 (e * 1000) + f64ToU64 (c * 500)) ∧
      calculateDelay ⟨ResponseStrategy.Minimal, e, t1⟩ c
        < calculateDelay ⟨ResponseStrategy.Deep, e, t2⟩ c := by
  intro e t1 t2 c hc0 hc1
  have hpow : (2 : ℕ) ^ 64 = 18446744073709551616 := by norm_num
  have hk : f64ToU64 (c * 500) ≤ 500 := f64ToU64_le (by push_cast; linarith)
  refine ⟨?_, ?_, ?_, ?_, ?_⟩
  · show (50 + f64ToU64 (c * 500)) % 2 ^ 64 = 50 + f64ToU64 (c * 500)
    exact Nat.mod_eq_of_lt (by rw [hpow]; omega)
  · show (200 + f64ToU64 (c * 500)) % 2 ^ 64 = 200 + f64ToU64 (c * 500)
    exact Nat.mod_eq_of_lt (by rw [hpow]; omega)
  · show (1000 + f64ToU64 (c * 500)) % 2 ^ 64 = 1000 + f64ToU64 (c * 500)
    exact Nat.mod_eq_of_lt (by rw [hpow]; omega)
  · intro he0 he1
    have hb : f64ToU64 (e * 1000) ≤ 1000 := f64ToU64_le (by push_cast; linarith)
    show (f64ToU64 (e * 1000) + f64ToU64 (c * 500)) % 2 ^ 64
        = f64ToU64 (e * 1000) + f64ToU64 (c * 500)
    exact Nat.mod_eq_of_lt (by rw [hpow]; omega)
  · show (50 + f64ToU64 (c * 500)) % 2 ^ 64 < (1000 + f64ToU64 (c * 500)) % 2 ^ 64
    rw [Nat.mod_eq_of_lt (by rw [hpow]; omega), Nat.mod_eq_of_lt (by rw [hpow]; omega)]
    omega

/-- C9 witness: the Minimal/Deep ordering at complexity 0.5. -/
theorem calculate_delay_witness :
    calculateDelay ⟨ResponseStrategy.Minimal, 1 / 2, 0⟩ (1 / 2)
      < calculateDelay ⟨ResponseStrategy.Deep, 1 / 2, 0⟩ (1 / 2) :=
  (calculate_delay_base_plus_truncated (1 / 2) 0 0 (1 / 2)
    (by norm_num) (by norm_num)).2.2.2.2

/-- C9 counterexample: at complexity 0.001 the Minimal delay is 50 ms,
not the claimed `50 + 0.001×500 = 50.5` ms — the cast truncates the
fractional part. -/
theorem calculate_delay_truncation_counterexample :
    calculateDelay ⟨ResponseStrategy.Minimal, 1 / 2, 0⟩ (1 / 1000) = 50 ∧
    (50 : ℚ) ≠ 50 + (1 / 1000) * 500 := by
  constructor
  · have hfl : ⌊(1 / 1000 : ℚ) * 500⌋ = 0 := by
      rw [Int.floor_eq_zero_iff, Set.mem_Ico]
      constructor <;> norm_num
    have h0 : f64ToU64 ((1 / 1000 : ℚ) * 500) = 0 := by
      unfold f64ToU64
      rw [if_neg (by norm_num), hfl]
      rfl
    show (50 + f64ToU64 ((1 / 1000 : ℚ) * 500)) % 2 ^ 64 = 50
    rw [h0]
    norm_num
  · norm_num

/-- No branch of the query dispatch produces error 1049. -/
theorem dispatch_no_1049 (st : MysqlState) (ql m : String) :
    (dispatchQuery st ql).1 ≠ MysqlResponse.Error 1049 m := by
  unfold dispatchQuery
  split_ifs with h1 h2 h3 h4
  · unfold handleShowQuery
    split_ifs <;> simp
  · unfold handleSelectQuery
    split_ifs <;> simp
  · simp [handleUseQuery, stripPre, h3]
  · simp
  · simp

/-- C10 (amended): a query whose lowercased form starts with `use `
always answers `Ok` with zero affected rows and records the trimmed
remainder of the *lowercased* query as the database; the
unknown-database branch (error 1049) of `handle_use_query` is
unreachable from `handle_query`. -/
theorem use_query_lowercased_and_no_unknown_db :
    ∀ (st : MysqlState) (q : String), strStarts (lowerStr q) "use " = true →
      ((handleQuery st q).1 = MysqlResponse.Ok 0 ∧
        ∃ rest, stripPre "use " (lowerStr q) = some rest ∧
          (handleQuery st q).2.2.database = some (rustTrim rest)) ∧
      (∀ (st' : MysqlState) (q' m : String),
        (handleQuery st' q').1 ≠ MysqlResponse.Error 1049 m) := by
  intro st q h
  have h' : listHasPre ('u' :: 's' :: 'e' :: ' ' :: []) (lowerStr q).data = true := h
  obtain ⟨c1, e1, hp1⟩ := listHasPre_expose h'
  obtain ⟨c2, e2, hp2⟩ := listHasPre_expose hp1
  obtain ⟨c3, e3, hp3⟩ := listHasPre_expose hp2
  obtain ⟨c4, e4, _⟩ := listHasPre_expose hp3
  have hdata : (lowerStr q).data = 'u' :: 's' :: 'e' :: ' ' :: c4 := by
    rw [e1, e2, e3, e4]
  have hshow : strStarts (lowerStr q) "show" = false := by
    have hrw : strStarts (lowerStr q) "show"
        = listHasPre ['s', 'h', 'o', 'w'] (lowerStr q).data := rfl
    rw [hrw, hdata]
    rfl
  have hselect : strStarts (lowerStr q) "select" = false := by
    have hrw : strStarts (lowerStr q) "select"
        = listHasPre ['s', 'e', 'l', 'e', 'c', 't'] (lowerStr q).data := rfl
    rw [hrw, hdata]
    rfl
  have hustrip : stripPre "use " (lowerStr q) = some ⟨(lowerStr q).data.drop 4⟩ := by
    simp [stripPre, h]
  constructor
  · have hdisp : dispatchQuery { st with query_count := st.query_count + 1 } (lowerStr q)
        = handleUseQuery { st with query_count := st.query_count + 1 } (lowerStr q) := by
      unfold dispatchQuery
      rw [hshow, hselect, h]
      simp
    have huse : handleUseQuery { st with query_count := st.query_count + 1 } (lowerStr q)
        = (MysqlResponse.Ok 0,
           { st with query_count := st.query_count + 1,
                     database := some (rustTrim ⟨(lowerStr q).data.drop 4⟩) }) := by
      unfold handleUseQuery
      rw [hustrip]
    have hq : handleQuery st q
        = (MysqlResponse.Ok 0, detectMaliciousQuery q,
           { st with query_count := st.query_count + 1,
                     database := some (rustTrim ⟨(lowerStr q).data.drop 4⟩) }) := by
      show ((dispatchQuery { st with query_count := st.query_count + 1 } (lowerStr q)).1,
        detectMaliciousQuery q,
        (dispatchQuery { st with query_count := st.query_count + 1 } (lowerStr q)).2) = _
      rw [hdisp, huse]
    exact ⟨by rw [hq], ⟨(lowerStr q).data.drop 4⟩, hustrip, by rw [hq]⟩
  · intro st' q' m
    exact dispatch_no_1049 { st' with query_count := st'.query_count + 1 } (lowerStr q') m

/-- C10 witness: a lowercase `use` query on a fresh handler. -/
theorem use_query_witness :
    (handleQuery (MysqlState.new "s") "use mysql").1 = MysqlResponse.Ok 0 :=
  ((use_query_lowercased_and_no_unknown_db (MysqlState.new "s") "use mysql"
    (by decide)).1).1

/-- C10 counterexample: for `USE Sales` the recorded database is the
lowercased `sales`, not the claimed trimmed remainder `Sales` of the
original query. -/
theorem use_query_case_counterexample :
    (handleQuery (MysqlState.new "s") "USE Sales").2.2.database = some "sales" ∧
    ("sales" : String) ≠ "Sales" :=
  ⟨by decide, by decide⟩

/-- A successful map lookup comes from a stored entry. -/
theorem fsGet_mem {files : List (String × FileEntry)} {p : String} {e : FileEntry}
    (h : fsGet files p = some e) : ∃ kv ∈ files, kv.2 = e := by
  unfold fsGet at h
  cases hf : files.find? (fun kv => pathComps kv.1 == pathComps p) with
  | none => rw [hf] at h; simp at h
  | some kv =>
    rw [hf] at h
    simp only [Option.map_some', Option.some.injEq] at h
    exact ⟨kv, List.mem_of_find?_eq_some hf, h⟩

/-- `read_file`, unfolded. -/
theorem readFile_eq (files : List (String × FileEntry)) (cd p : String) :
    readFile ⟨files, cd⟩ p =
      match fsGet files (resolvePath cd p) with
      | some entry =>
        match entry.file_type with
        | FileType.File =>
          if 10 ≤ utf8Len entry.permissions ∧ entry.permissions.data.get? 7 = some 'r' then
            Except.ok (entry.content.getD "")
          else Except.error ("cat: " ++ p ++ ": Permission denied")
        | FileType.Directory => Except.error ("cat: " ++ p ++ ": Is a directory")
        | FileType.Symlink => Except.ok (entry.content.getD "")
      | none => Except.error ("cat: " ++ p ++ ": No such file or directory") := rfl

/-- C2: on the initialized filesystem (any current directory), reading a
resolved Directory fails Is-a-directory; reading a resolved File succeeds
exactly when the 8th permission character (other-read) is `r`, else fails
Permission denied; `/etc/shadow` always fails Permission denied and
`/home/admin/.bashrc` always succeeds with content containing
`.bashrc`. -/
theorem read_file_permission_rules :
    ∀ (cd p : String) (e : FileEntry),
      fsGet initFiles (resolvePath cd p) = some e →
      ((e.file_type = FileType.Directory →
          readFile ⟨initFiles, cd⟩ p = Except.error ("cat: " ++ p ++ ": Is a directory")) ∧
       (e.file_type = FileType.File →
          (e.permissions.data.get? 7 = some 'r' →
            readFile ⟨initFiles, cd⟩ p = Except.ok (e.content.getD "")) ∧
          (e.permissions.data.get? 7 ≠ some 'r' →
            readFile ⟨initFiles, cd⟩ p
              = Except.error ("cat: " ++ p ++ ": Permission denied")))) ∧
      readFile ⟨initFiles, cd⟩ "/etc/shadow"
          = Except.error "cat: /etc/shadow: Permission denied" ∧
      ∃ content, readFile ⟨initFiles, cd⟩ "/home/admin/.bashrc" = Except.ok content ∧
        strContains content ".bashrc" = true := by
  intro cd p e hget
  have hperm : utf8Len e.permissions = 10 := by
    obtain ⟨kv, hmem, hkv⟩ := fsGet_mem hget
    have hall : ∀ kv ∈ initFiles, utf8Len kv.2.permissions = 10 := by decide
    rw [← hkv]
    exact hall kv hmem
  refine ⟨⟨?_, ?_⟩, rfl, ⟨"# .bashrc\nexport PS1='\\u@\\h:\\w\\$ '\n", rfl, by decide⟩⟩
  · intro hdir
    simp only [readFile_eq, hget, hdir]
  · intro hfile
    constructor
    · intro hr
      simp only [readFile_eq, hget, hfile]
      rw [if_pos ⟨le_of_eq hperm.symm, hr⟩]
    · intro hr
      simp only [readFile_eq, hget, hfile]
      rw [if_neg (fun hc => hr hc.2)]

/-- C2 witness: a world-readable file read with its seeded content. -/
theorem read_file_witness :
    readFile ⟨initFiles, "/home/admin"⟩ "/etc/hosts" = Except.ok "127.0.0.1 localhost\n" :=
  (((read_file_permission_rules "/home/admin" "/etc/hosts"
      (mkFile "/etc/hosts" "-rw-r--r--" 156 (some "127.0.0.1 localhost\n")).2
      (by decide)).1).2 (by decide)).1 (by decide)

/-- `list_dir`, unfolded. -/
theorem listDir_eq (files : List (String × FileEntry)) (cd : String) (popt : Option String) :
    listDir ⟨files, cd⟩ popt =
      if ((files.filter (fun kv =>
            (rustParent kv.1 == some (listTarget cd popt)) && kv.1 != listTarget cd popt)).map
            (fun kv => kv.2)).isEmpty ∧ fsGet files (listTarget cd popt) = none then
        Except.error ("ls: cannot access '" ++ listTarget cd popt
          ++ "': No such file or directory")
      else
        Except.ok ((files.filter (fun kv =>
          (rustParent kv.1 == some (listTarget cd popt)) && kv.1 != listTarget cd popt)).map
          (fun kv => kv.2)) := rfl

/-- C8: on the initialized filesystem (any current directory),
`list_dir` fails with the No-such-file-or-directory error exactly when
the target is not an entry and no entry's parent is the target; a
successful listing holds exactly the entries whose parent is the
target. -/
theorem list_dir_children_and_notfound :
    ∀ (cd : String) (popt : Option String),
      (listDir ⟨initFiles, cd⟩ popt
          = Except.error ("ls: cannot access '" ++ listTarget cd popt
              ++ "': No such file or directory")
        ↔ fsGet initFiles (listTarget cd popt) = none ∧
            ∀ kv ∈ initFiles, rustParent kv.1 ≠ some (listTarget cd popt)) ∧
      (∀ es, listDir ⟨initFiles, cd⟩ popt = Except.ok es →
        ∀ e : FileEntry, e ∈ es ↔
          ∃ kv ∈ initFiles, rustParent kv.1 = some (listTarget cd popt) ∧ kv.2 = e) := by
  intro cd popt
  have hred : ∀ kv ∈ initFiles, rustParent kv.1 ≠ some kv.1 := by decide
  have hq : ∀ kv ∈ initFiles,
      (((rustParent kv.1 == some (listTarget cd popt)) && kv.1 != listTarget cd popt) = true
        ↔ rustParent kv.1 = some (listTarget cd popt)) := by
    intro kv hkv
    constructor
    · intro hqt
      rw [Bool.and_eq_true, beq_iff_eq] at hqt
      exact hqt.1
    · intro hp
      rw [Bool.and_eq_true, beq_iff_eq, bne_iff_ne]
      exact ⟨hp, fun heq => hred kv hkv (hp.trans (by rw [heq]))⟩
  have hempty : ((initFiles.filter (fun kv =>
        (rustParent kv.1 == some (listTarget cd popt)) && kv.1 != listTarget cd popt)).map
        (fun kv => kv.2)) = []
      ↔ ∀ kv ∈ initFiles, rustParent kv.1 ≠ some (listTarget cd popt) := by
    rw [List.map_eq_nil_iff, List.filter_eq_nil_iff]
    constructor
    · intro hall kv hkv hp
      exact hall kv hkv ((hq kv hkv).mpr hp)
    · intro hall kv hkv hqt
      exact hall kv hkv ((hq kv hkv).mp hqt)
  constructor
  · rw [listDir_eq]
    by_cases hcond : ((initFiles.filter (fun kv =>
          (rustParent kv.1 == some (listTarget cd popt)) && kv.1 != listTarget cd popt)).map
          (fun kv => kv.2)).isEmpty = true ∧ fsGet initFiles (listTarget cd popt) = none
    · rw [if_pos hcond]
      exact iff_of_true rfl ⟨hcond.2, hempty.mp (List.isEmpty_iff.mp hcond.1)⟩
    · rw [if_neg hcond]
      refine iff_of_false (fun h => by simp at h) ?_
      rintro ⟨hnone, hall⟩
      exact hcond ⟨List.isEmpty_iff.mpr (hempty.mpr hall), hnone⟩
  · intro es hes e
    rw [listDir_eq] at hes
    by_cases hcond : ((initFiles.filter (fun kv =>
          (rustParent kv.1 == some (listTarget cd popt)) && kv.1 != listTarget cd popt)).map
          (fun kv => kv.2)).isEmpty = true ∧ fsGet initFiles (listTarget cd popt) = none
    · rw [if_pos hcond] at hes
      exact absurd hes (by simp)
    · rw [if_neg hcond] at hes
      have hes' : es = (initFiles.filter (fun kv =>
          (rustParent kv.1 == some (listTarget cd popt)) && kv.1 != listTarget cd popt)).map
          (fun kv => kv.2) := by
        injection hes with h
        exact h.symm
      rw [hes', List.mem_map]
      constructor
      · rintro ⟨kv, hkvmem, rfl⟩
        rw [List.mem_filter] at hkvmem
        exact ⟨kv, hkvmem.1, (hq kv hkvmem.1).mp hkvmem.2, rfl⟩
      · rintro ⟨kv, hkvmem, hp, rfl⟩
        exact ⟨kv, List.mem_filter.mpr ⟨hkvmem, (hq kv hkvmem).mpr hp⟩, rfl⟩

/-- A split never yields the empty group list. -/
theorem splitCharsBy_ne_nil (p : Char → Bool) (l : List Char) : splitCharsBy p l ≠ [] := by
  induction l with
  | nil => simp [splitCharsBy]
  | cons c rest ih =>
    by_cases hc : p c = true
    · simp [splitCharsBy, hc]
    · cases h : splitCharsBy p rest with
      | nil => simp [splitCharsBy, hc, h]
      | cons g gs => simp [splitCharsBy, hc, h]

/-- No character of a split group satisfies the separator predicate. -/
theorem splitCharsBy_sep_mem (p : Char → Bool) (l : List Char) :
    ∀ g ∈ splitCharsBy p l, ∀ c ∈ g, p c = false := by
  induction l with
  | nil =>
    intro g hg c hc
    simp [splitCharsBy] at hg
    subst hg
    simp at hc
  | cons a rest ih =>
    intro g hg c hc
    by_cases ha : p a = true
    · rw [show splitCharsBy p (a :: rest) = [] :: splitCharsBy p rest from by
        simp [splitCharsBy, ha]] at hg
      rcases List.mem_cons.mp hg with rfl | hg'
      · simp at hc
      · exact ih g hg' c hc
    · have ha' : p a = false := by simpa using ha
      cases hsp : splitCharsBy p rest with
      | nil => exact absurd hsp (splitCharsBy_ne_nil p rest)
      | cons g0 gs =>
        rw [show splitCharsBy p (a :: rest) = (a :: g0) :: gs from by
          simp [splitCharsBy, ha, hsp]] at hg
        rcases List.mem_cons.mp hg with rfl | hg'
        · rcases List.mem_cons.mp hc with rfl | hc'
          · exact ha'
          · exact ih g0 (by rw [hsp]; exact List.mem_cons_self g0 gs) c hc'
        · exact ih g (by rw [hsp]; exact List.mem_cons_of_mem g0 hg') c hc

/-- A list free of separators splits into itself. -/
theorem splitCharsBy_all_nosep (p : Char → Bool) (a : List Char)
    (h : ∀ c ∈ a, p c = false) : splitCharsBy p a = [a] := by
  induction a with
  | nil => rfl
  | cons c rest ih =>
    have hc : p c = false := h c (List.mem_cons_self c rest)
    have hrest := ih (fun x hx => h x (List.mem_cons_of_mem c hx))
    simp [splitCharsBy, hc, hrest]

/-- Splitting a separator-free part, a separator, then a remainder. -/
theorem splitCharsBy_append_sep (p : Char → Bool) (a m : List Char) (s : Char)
    (ha : ∀ c ∈ a, p c = false) (hs : p s = true) :
    splitCharsBy p (a ++ s :: m) = a :: splitCharsBy p m := by
  induction a with
  | nil => simp [splitCharsBy, hs]
  | cons c rest ih =>
    have hc : p c = false := ha c (List.mem_cons_self c rest)
    have ih' := ih (fun x hx => ha x (List.mem_cons_of_mem c hx))
    rw [List.cons_append]
    cases hsp : splitCharsBy p (rest ++ s :: m) with
    | nil => exact absurd hsp (splitCharsBy_ne_nil p _)
    | cons g0 gs =>
      rw [hsp] at ih'
      injection ih' with h1 h2
      simp [splitCharsBy, hc, hsp, h1, h2]

/-- Joining separator-free components and splitting again recovers
them. -/
theorem splitSlash_joinComps (cs : List (List Char)) (hne : cs ≠ [])
    (h : ∀ g ∈ cs, ∀ c ∈ g, (c == '/') = false) :
    splitSlash (joinComps cs) = cs := by
  induction cs with
  | nil => exact absurd rfl hne
  | cons a rest ih =>
    cases rest with
    | nil => exact splitCharsBy_all_nosep _ a (h a (List.mem_cons_self a []))
    | cons b rest' =>
      show splitCharsBy (fun c => c == '/') (a ++ '/' :: joinComps (b :: rest'))
          = a :: b :: rest'
      rw [splitCharsBy_append_sep _ a _ '/' (h a (List.mem_cons_self a _)) (by decide)]
      exact congrArg (a :: ·) (ih (by simp) (fun g hg => h g (List.mem_cons_of_mem a hg)))

/-- Every normalized component is nonempty, not `.`, and free of
separators. -/
theorem pathComps_wf (s : String) :
    ∀ g ∈ pathComps s, g ≠ [] ∧ g ≠ ['.'] ∧ ∀ c ∈ g, (c == '/') = false := by
  intro g hg
  unfold pathComps at hg
  rw [List.mem_filter] at hg
  have hns := splitCharsBy_sep_mem (fun c => c == '/') s.data g hg.1
  have hcond := hg.2
  rw [Bool.and_eq_true, Bool.not_eq_true'] at hcond
  refine ⟨?_, ?_, hns⟩
  · intro hnil
    rw [hnil] at hcond
    simp at hcond
  · intro hdot
    have := hcond.2
    rw [hdot] at this
    simp at this

/-- Rebuilding the absolute path from its normalized components and
normalizing again is the identity on the components. -/
theorem pathComps_canonical (cs : List (List Char))
    (h : ∀ g ∈ cs, g ≠ [] ∧ g ≠ ['.'] ∧ ∀ c ∈ g, (c == '/') = false) :
    pathComps ⟨'/' :: joinComps cs⟩ = cs := by
  cases cs with
  | nil => decide
  | cons a rest =>
    have hsj : splitSlash (joinComps (a :: rest)) = a :: rest :=
      splitSlash_joinComps (a :: rest) (by simp) (fun g hg => (h g hg).2.2)
    unfold pathComps
    rw [show String.data ⟨'/' :: joinComps (a :: rest)⟩ = '/' :: joinComps (a :: rest) from rfl]
    rw [show splitSlash ('/' :: joinComps (a :: rest))
        = [] :: splitSlash (joinComps (a :: rest)) from by
      show splitCharsBy _ _ = _
      simp [splitCharsBy]
      rfl]
    rw [hsj, List.filter_cons]
    simp only [List.isEmpty_nil, Bool.not_true, Bool.false_and, if_false]
    refine List.filter_eq_self.mpr ?_
    intro g hg
    obtain ⟨h1, h2, _⟩ := h g hg
    rw [Bool.and_eq_true, Bool.not_eq_true']
    constructor
    · cases g with
      | nil => exact absurd rfl h1
      | cons x xs => rfl
    · exact decide_eq_true h2

/-- `change_dir`, unfolded. -/
theorem changeDir_eq (files : List (String × FileEntry)) (cd p : String) :
    changeDir ⟨files, cd⟩ p =
      match fsGet files (resolvePath cd p) with
      | some entry =>
        if entry.file_type = FileType.Directory then
          Except.ok ⟨files, resolvePath cd p⟩
        else Except.error ("cd: " ++ p ++ ": Not a directory")
      | none => Except.error ("cd: " ++ p ++ ": No such file or directory") := rfl

/-- C4 (amended): on the initialized filesystem, whenever `change_dir p`
succeeds the new current directory is exactly `resolve_path p` — an
absolute string that is component-equivalent to the canonical absolute
form of `p`, though not always equal to it (e.g. a trailing separator is
kept) — and it names an existing Directory entry; and `change_dir ".."`
at the root stays at the root. -/
theorem change_dir_resolved :
    (∀ (cd p : String) (fs' : FakeFilesystem),
      changeDir ⟨initFiles, cd⟩ p = Except.ok fs' →
        fs'.files = initFiles ∧
        fs'.current_dir = resolvePath cd p ∧
        pathComps fs'.current_dir = pathComps (specCanonicalAbsForm cd p) ∧
        ∃ e, fsGet initFiles fs'.current_dir = some e ∧ e.file_type = FileType.Directory) ∧
    changeDir ⟨initFiles, "/"⟩ ".." = Except.ok ⟨initFiles, "/"⟩ := by
  constructor
  · intro cd p fs' h
    rw [changeDir_eq] at h
    split at h
    · rename_i entry hget
      split_ifs at h with hdir
      · injection h with h'
        subst h'
        refine ⟨rfl, rfl, ?_, ⟨entry, hget, hdir⟩⟩
        show pathComps (resolvePath cd p)
            = pathComps ⟨'/' :: joinComps (pathComps (resolvePath cd p))⟩
        rw [pathComps_canonical (pathComps (resolvePath cd p))
          (pathComps_wf (resolvePath cd p))]
    · simp at h
  · decide

/-- C4 witness: a plain absolute change of directory. -/
theorem change_dir_witness :
    (⟨initFiles, "/etc"⟩ : FakeFilesystem).current_dir = resolvePath "/home/admin" "/etc" :=
  ((change_dir_resolved.1 "/home/admin" "/etc" ⟨initFiles, "/etc"⟩ (by decide)).2).1

/-- C4 counterexample: `change_dir "/etc/"` succeeds, but `current_dir()`
keeps the trailing separator — it is not the canonical absolute form
`/etc` of the argument. -/
theorem change_dir_canonical_counterexample :
    changeDir FakeFilesystem.new "/etc/" = Except.ok ⟨initFiles, "/etc/"⟩ ∧
    currentDir ⟨initFiles, "/etc/"⟩ = "/etc/" ∧
    specCanonicalAbsForm "/home/admin" "/etc/" = "/etc" ∧
    ("/etc/" : String) ≠ "/etc" :=
  ⟨by decide, rfl, by decide, by decide⟩
